import Mathlib

/-!
Verification of the command-based drawing model of the sticker sketchpad
(`src/main.ts`, plus the export variant of the same file).

The embedding translates the TypeScript source into Lean:

* a `CanvasRenderingContext2D` is modelled as a trace of drawing operations
  (`DrawOp`); every `ctx.<op>` call in a `display` body is emitted in source
  order.  The code only ever draws full circles (`arc(x, y, r, 0, 2π)`), so
  the `arc` operation records center and radius.
* the closures returned by `createMarkerLine` / `createSticker` become
  records (`StrokeCmd` / `StickerCmd`) holding exactly the captured state;
  their `drag` / `display` methods become functions on those records.
* the module-level mutable state of `main.ts` (display list, redo stack,
  tool state, preview, cursor, in-progress command) becomes `AppState`; JS
  object identity of commands is modelled by an allocation store: the store
  is the list of all commands ever created, commands are referred to by
  their allocation index, and `displayList` / `redoStack` / `currentCmd`
  hold indices.  `drag` on the in-progress command updates the store in
  place, which is exactly the aliasing the JS reference semantics gives.
* each event listener body becomes one arm of the `step` function.
-/

/-- A 2D point `\x7bx, y\x7d` in canvas coordinates (`main.ts` type `Point`). -/
structure Point where
  x : ℚ
  y : ℚ
deriving DecidableEq, Repr

/-- One call on the 2D drawing context.  A `display(ctx)` body is modelled as
the list of such calls it performs, in order.  `arc` is always a full circle
in this code; `setFont` records the pixel size interpolated into the css font
string. -/
inductive DrawOp where
  | save
  | restore
  | beginPath
  | fill
  | strokePath
  | clearRect (x y w h : ℚ)
  | setStrokeStyle (c : String)
  | setFillStyle (c : String)
  | setLineWidth (w : ℚ)
  | setLineCap (s : String)
  | setLineJoin (s : String)
  | arc (x y r : ℚ)
  | moveTo (x y : ℚ)
  | lineTo (x y : ℚ)
  | setFont (px : ℚ)
  | setTextAlign (s : String)
  | setTextBaseline (s : String)
  | setGlobalAlpha (a : ℚ)
  | fillText (t : String) (x y : ℚ)
  | scale (sx sy : ℚ)
deriving DecidableEq, Repr

/-- State captured by the closure returned by `createMarkerLine`: the growing
point list and the style fixed at creation. -/
structure StrokeCmd where
  points : List Point
  strokeStyle : String
  lineWidth : ℚ
deriving DecidableEq, Repr

/-- State captured by the closure returned by `createSticker`: the mutable
anchor and the glyph/size fixed at creation. -/
structure StickerCmd where
  pos : Point
  emoji : String
  px : ℚ
deriving DecidableEq, Repr

/-- A committed drawing command: the tagged union of the two factories'
products (`DisplayCommand` objects in `main.ts`). -/
inductive Command where
  | stroke (c : StrokeCmd)
  | sticker (c : StickerCmd)
deriving DecidableEq, Repr

/-- The optional `opts` object of `createMarkerLine`, with optional fields. -/
structure MarkerOpts where
  strokeStyle : Option String
  lineWidth : Option ℚ
deriving DecidableEq, Repr

/-- `createMarkerLine(start, opts?)`: points starts as `[start]`;
`opts?.strokeStyle ?? "black"`, `opts?.lineWidth ?? 2`. -/
def createMarkerLine (start : Point) (opts : Option MarkerOpts) : StrokeCmd :=
  { points := [start]
    strokeStyle := (opts.bind (fun o => o.strokeStyle)).getD "black"
    lineWidth := (opts.bind (fun o => o.lineWidth)).getD 2 }

/-- `createSticker(start, emoji, px)`: copies the start point into the
mutable anchor (`const pos = \x7b ...start \x7d`). -/
def createSticker (start : Point) (emoji : String) (px : ℚ) : StickerCmd :=
  { pos := start, emoji := emoji, px := px }

/-- The marker line's `drag(x, y)`: `points.push(\x7bx, y\x7d)`. -/
def StrokeCmd.drag (c : StrokeCmd) (x y : ℚ) : StrokeCmd :=
  { c with points := c.points ++ [⟨x, y⟩] }

/-- The sticker's `drag(x, y)`: `pos.x = x; pos.y = y`. -/
def StickerCmd.drag (c : StickerCmd) (x y : ℚ) : StickerCmd :=
  { c with pos := ⟨x, y⟩ }

/-- `drag` dispatched over the command union. -/
def Command.drag : Command → ℚ → ℚ → Command
  | Command.stroke c, x, y => Command.stroke (c.drag x y)
  | Command.sticker c, x, y => Command.sticker (c.drag x y)

/-- The marker line's `display(ctx)`.  After the early return on an empty
point list it sets style state (`ctx.lineWidth = lineWidth`), then either
draws a filled dot — `ctx.arc(p.x, p.y, ctx.lineWidth / 2, 0, 2π)` where
`ctx.lineWidth` was just assigned `lineWidth` — or a polyline. -/
def StrokeCmd.display (c : StrokeCmd) : List DrawOp :=
  match c.points with
  | [] => []
  | [p] =>
    [DrawOp.save, DrawOp.setStrokeStyle c.strokeStyle,
     DrawOp.setLineWidth c.lineWidth, DrawOp.setLineCap "round",
     DrawOp.setLineJoin "round", DrawOp.beginPath,
     DrawOp.arc p.x p.y (c.lineWidth / 2),
     DrawOp.setFillStyle c.strokeStyle, DrawOp.fill, DrawOp.restore]
  | p1 :: p2 :: ps =>
    [DrawOp.save, DrawOp.setStrokeStyle c.strokeStyle,
     DrawOp.setLineWidth c.lineWidth, DrawOp.setLineCap "round",
     DrawOp.setLineJoin "round", DrawOp.beginPath,
     DrawOp.moveTo p1.x p1.y] ++
    (p2 :: ps).map (fun pt => DrawOp.lineTo pt.x pt.y) ++
    [DrawOp.strokePath, DrawOp.restore]

/-- The sticker's `display(ctx)`: set font/alignment, draw the glyph centered
on the anchor. -/
def StickerCmd.display (c : StickerCmd) : List DrawOp :=
  [DrawOp.save, DrawOp.setFont c.px, DrawOp.setTextAlign "center",
   DrawOp.setTextBaseline "middle", DrawOp.fillText c.emoji c.pos.x c.pos.y,
   DrawOp.restore]

/-- `display` dispatched over the command union. -/
def Command.display : Command → List DrawOp
  | Command.stroke c => c.display
  | Command.sticker c => c.display

/-- A sticker definition in the registry (`type StickerDef`). -/
structure StickerDef where
  emoji : String
  px : ℚ
deriving DecidableEq, Repr

/-- The active tool kind (`type ToolMode`). -/
inductive ToolMode where
  | marker
  | sticker
deriving DecidableEq, Repr

/-- Cursor state shared by tool and preview logic (`type Cursor`). -/
structure Cursor where
  active : Bool
  x : ℚ
  y : ℚ
deriving DecidableEq, Repr

/-- The module-level `const currentStrokeStyle = "black"`. -/
def currentStrokeStyle : String := "black"

/-- The characters `String.prototype.trim()` strips: the ECMA-262
WhiteSpace production (TAB, VT, FF, SP, NBSP, ZWNBSP/BOM, and the Unicode
Zs category: U+1680, U+2000..U+200A, U+202F, U+205F, U+3000) together with
the LineTerminator production (LF, CR, LS, PS). -/
def jsWhitespaceChars : List Char :=
  ['\t', '\n', '\u000B', '\u000C', '\r', '\u0020', '\u00A0', '\u1680',
   '\u2000', '\u2001', '\u2002', '\u2003', '\u2004', '\u2005', '\u2006',
   '\u2007', '\u2008', '\u2009', '\u200A', '\u2028', '\u2029', '\u202F',
   '\u205F', '\u3000', '\uFEFF']

/-- Whether JS `trim()` treats `c` as whitespace. -/
def isJsWhitespace (c : Char) : Bool :=
  jsWhitespaceChars.contains c

/-- Drops leading JS-whitespace characters from a character list. -/
def dropWhileWs : List Char → List Char
  | [] => []
  | c :: cs => if isJsWhitespace c then dropWhileWs cs else c :: cs

/-- JS `String.prototype.trim()`: strips leading and trailing whitespace
(ECMA-262 WhiteSpace and LineTerminator characters).  Written structurally
over the character list so it evaluates in the kernel. -/
def jsTrim (s : String) : String :=
  String.mk (dropWhileWs ((dropWhileWs s.data.reverse).reverse))

/-- The closure state of a preview command (`createMarkerPreview` /
`createStickerPreview`): position, visibility flag, and which factory made
it.  The style getters passed to the factories read the current tool
parameters at display time, so they are not stored here. -/
structure PreviewState where
  kind : ToolMode
  x : ℚ
  y : ℚ
  visible : Bool
deriving DecidableEq, Repr

/-- The preview's `set(x, y)`. -/
def PreviewState.set (p : PreviewState) (x y : ℚ) : PreviewState :=
  { p with x := x, y := y }

/-- The preview's `show()`. -/
def PreviewState.reveal (p : PreviewState) : PreviewState :=
  { p with visible := true }

/-- The preview's `hide()`. -/
def PreviewState.conceal (p : PreviewState) : PreviewState :=
  { p with visible := false }

/-- The history manager's two stacks.  JS arrays are kept in array order, so
`push` appends at the end and `pop` removes the last element; the top of the
redo stack is its last element.  Generic in the element type: `main.ts`
stores command objects, the machine below stores store indices. -/
structure Hist (α : Type) where
  displayList : List α
  redoStack : List α
deriving DecidableEq, Repr

/-- The commit performed by the `mousedown` handler:
`if (redoStack.length) redoStack.length = 0;` then `displayList.push(cmd)`. -/
def Hist.commit {α : Type} (s : Hist α) (c : α) : Hist α :=
  { displayList := s.displayList ++ [c]
    redoStack := if s.redoStack.isEmpty then s.redoStack else [] }

/-- `undo()`: if the display list is empty return, else pop its last element
and push it onto the redo stack. -/
def Hist.undo {α : Type} (s : Hist α) : Hist α :=
  match s.displayList.getLast? with
  | none => s
  | some c =>
    { displayList := s.displayList.dropLast
      redoStack := s.redoStack ++ [c] }

/-- `redo()`: if the redo stack is empty return, else pop its last element
and push it back onto the display list. -/
def Hist.redo {α : Type} (s : Hist α) : Hist α :=
  match s.redoStack.getLast? with
  | none => s
  | some c =>
    { displayList := s.displayList ++ [c]
      redoStack := s.redoStack.dropLast }

/-- The `clearBtn` handler: `displayList.length = 0; redoStack.length = 0`. -/
def Hist.clear {α : Type} : Hist α :=
  { displayList := [], redoStack := [] }

/-- `commit` folded over a list of commands, oldest first. -/
def commitAll {α : Type} (cs : List α) (s : Hist α) : Hist α :=
  cs.foldl Hist.commit s

/-- The whole module-level mutable state of `main.ts`.  `store` is the
allocation store of every command object ever created (JS heap); the
history stacks and `currentCmd` hold indices into it, modelling object
references. -/
structure AppState where
  store : List Command
  hist : Hist Nat
  currentToolMode : ToolMode
  currentLineWidth : ℚ
  stickerDefs : List StickerDef
  currentSticker : String
  currentStickerPx : ℚ
  previewCmd : Option PreviewState
  cursor : Cursor
  currentCmd : Option Nat
deriving DecidableEq, Repr

/-- `setPreviewForCurrentTool()`: builds a fresh preview closure for the
active tool; its captured state starts at `x = 0, y = 0, visible = false`. -/
def setPreviewForCurrentTool (s : AppState) : AppState :=
  { s with previewCmd := some ⟨s.currentToolMode, 0, 0, false⟩ }

/-- The command built by the `mousedown` handler from the active tool's
current parameters at cursor position `(x, y)`. -/
def mkToolCommand (s : AppState) (x y : ℚ) : Command :=
  match s.currentToolMode with
  | ToolMode.marker =>
    Command.stroke (createMarkerLine ⟨x, y⟩
      (some ⟨some currentStrokeStyle, some s.currentLineWidth⟩))
  | ToolMode.sticker =>
    Command.sticker (createSticker ⟨x, y⟩ s.currentSticker s.currentStickerPx)

/-- `drag` applied through the store at index `i` (the JS mutation of the
object `currentCmd` points at). -/
def storeDrag (store : List Command) (i : Nat) (x y : ℚ) : List Command :=
  match store[i]? with
  | some c => store.set i (c.drag x y)
  | none => store

/-- The events the listeners in `initUI` handle.  `addSticker` carries the
result of the `prompt` call (`none` = cancelled). -/
inductive Event where
  | mousedown (x y : ℚ)
  | mousemove (x y : ℚ)
  | mouseup
  | mouseleave
  | undoEv
  | redoEv
  | clearEv
  | setMarkerTool (w : ℚ)
  | selectSticker (i : Nat)
  | addSticker (response : Option String)
deriving DecidableEq, Repr

/-- `endStroke()`: deactivate the cursor, drop the in-progress command
reference, re-arm the preview at the last cursor position and show it. -/
def endStroke (s : AppState) : AppState :=
  { s with
    cursor := { s.cursor with active := false }
    currentCmd := none
    previewCmd := s.previewCmd.map
      (fun p => (p.set s.cursor.x s.cursor.y).reveal) }

/-- One event-listener invocation, translated arm by arm from `initUI`.
Event dispatches (`drawing-changed` / `tool-moved`) only trigger repaints
and button enabling, which read state without changing it, so they do not
appear here. -/
def step (e : Event) (s : AppState) : AppState :=
  match e with
  | Event.mousedown x y =>
    let s1 : AppState :=
      { s with
        cursor := { active := true, x := x, y := y }
        previewCmd := s.previewCmd.map PreviewState.conceal }
    { s1 with
      hist := s1.hist.commit s1.store.length
      store := s1.store ++ [mkToolCommand s1 x y]
      currentCmd := some s1.store.length }
  | Event.mousemove x y =>
    let s1 : AppState := { s with cursor := { s.cursor with x := x, y := y } }
    match s1.cursor.active, s1.currentCmd with
    | true, some i => { s1 with store := storeDrag s1.store i x y }
    | _, _ =>
      { s1 with previewCmd := s1.previewCmd.map (fun p => (p.set x y).reveal) }
  | Event.mouseup => endStroke s
  | Event.mouseleave =>
    endStroke { s with previewCmd := s.previewCmd.map PreviewState.conceal }
  | Event.undoEv => { s with hist := s.hist.undo }
  | Event.redoEv => { s with hist := s.hist.redo }
  | Event.clearEv => { s with hist := Hist.clear }
  | Event.setMarkerTool w =>
    setPreviewForCurrentTool
      { s with currentToolMode := ToolMode.marker, currentLineWidth := w }
  | Event.selectSticker i =>
    match s.stickerDefs[i]? with
    | none => s
    | some d =>
      setPreviewForCurrentTool
        { s with
          currentToolMode := ToolMode.sticker
          currentSticker := d.emoji
          currentStickerPx := d.px }
  | Event.addSticker response =>
    match response with
    | none => s
    | some text =>
      let trimmed := jsTrim text
      if trimmed = "" then s
      else
        let s1 : AppState :=
          { s with stickerDefs := s.stickerDefs ++ [⟨trimmed, 32⟩] }
        setPreviewForCurrentTool
          { s1 with
            currentToolMode := ToolMode.sticker
            currentSticker := trimmed
            currentStickerPx := (32 : ℚ) }

/-- The marker preview's `display(ctx)` (`createMarkerPreview`): a hollow
circle of the current line width plus a 1px center dot.  The getters passed
at construction read the current tool parameters, hence the `s` argument. -/
def markerPreviewDisplay (s : AppState) (p : PreviewState) : List DrawOp :=
  if p.visible = false then []
  else
    [DrawOp.save, DrawOp.beginPath, DrawOp.setLineWidth 1,
     DrawOp.setStrokeStyle "rgba(0,0,0,0.6)",
     DrawOp.setFillStyle "rgba(0,0,0,0.08)",
     DrawOp.arc p.x p.y (s.currentLineWidth / 2), DrawOp.fill,
     DrawOp.strokePath, DrawOp.beginPath, DrawOp.arc p.x p.y 1,
     DrawOp.setFillStyle currentStrokeStyle, DrawOp.fill, DrawOp.restore]

/-- The sticker preview's `display(ctx)` (`createStickerPreview`): the
current glyph drawn at 0.7 alpha. -/
def stickerPreviewDisplay (s : AppState) (p : PreviewState) : List DrawOp :=
  if p.visible = false then []
  else
    [DrawOp.save, DrawOp.setFont s.currentStickerPx,
     DrawOp.setTextAlign "center", DrawOp.setTextBaseline "middle",
     DrawOp.setGlobalAlpha (7 / 10),
     DrawOp.fillText s.currentSticker p.x p.y,
     DrawOp.setGlobalAlpha 1, DrawOp.restore]

/-- The preview's `display(ctx)`, dispatched on which factory built it. -/
def previewDisplay (s : AppState) (p : PreviewState) : List DrawOp :=
  match p.kind with
  | ToolMode.marker => markerPreviewDisplay s p
  | ToolMode.sticker => stickerPreviewDisplay s p

/-- `for (const cmd of displayList) cmd.display(ctx)`: each index is looked
up in the allocation store (in the running program the reference is always
valid; a dangling index contributes nothing). -/
def renderDisplayList (s : AppState) : List DrawOp :=
  (s.hist.displayList.map
    (fun i => (Option.map Command.display s.store[i]?).getD [])).flatten

/-- The `redraw` observer: clear the full 256×256 canvas, paint every display
list entry in order, then paint the preview if the cursor is not active and
the preview reports itself visible
(`if (!cursor.active && previewCmd?.visible()) previewCmd.display(ctx)`). -/
def redraw (s : AppState) : List DrawOp :=
  DrawOp.clearRect 0 0 256 256 ::
  (renderDisplayList s ++
    (match s.previewCmd with
     | some p => if !s.cursor.active && p.visible then previewDisplay s p else []
     | none => []))

/-- The seeded sticker registry. -/
def stickerDefsInit : List StickerDef :=
  [⟨"⭐", 32⟩, ⟨"😊", 32⟩, ⟨"🍓", 32⟩, ⟨"🔥", 32⟩]

/-- The canvas is created as 256×256 (`createDrawingCanvas(256, 256)`). -/
def baseResolution : Nat := 256

/-- The state after module initialization and the tail of `initUI`
(`renderStickerButtons(); setMarkerTool(2, thinBtn)`); the button rebuild and
the final `tool-moved` dispatch only touch the DOM. -/
def initState : AppState :=
  step (Event.setMarkerTool 2)
    { store := []
      hist := ⟨[], []⟩
      currentToolMode := ToolMode.marker
      currentLineWidth := 2
      stickerDefs := stickerDefsInit
      currentSticker := "⭐"
      currentStickerPx := 32
      previewCmd := none
      cursor := ⟨false, 0, 0⟩
      currentCmd := none }

/-- The offscreen export surface: canvas dimensions, the trace drawn on its
context, and the encoding requested from `toDataURL`. -/
structure ExportSurface where
  width : Nat
  height : Nat
  ops : List DrawOp
  encodedFormat : String
deriving DecidableEq, Repr

/-- `exportHighResPNG(displayList)` from the export variant of `main.ts`:
a fixed 1024×1024 offscreen canvas, `bctx.scale(4, 4)` (`256×4 = 1024`),
every command rendered in order, then PNG encoding.  The function takes no
scale parameter; the factor 4 is hard-coded. -/
def exportHighResPNG (displayList : List Command) : ExportSurface :=
  { width := 1024
    height := 1024
    ops := [DrawOp.save, DrawOp.scale 4 4] ++
      (displayList.map Command.display).flatten ++ [DrawOp.restore]
    encodedFormat := "image/png" }

/-- Indices held anywhere in the history stacks are valid store references;
true of every state the running program reaches, since commands are only
ever appended to the store. -/
def WfState (s : AppState) : Prop :=
  (∀ i ∈ s.hist.displayList, i < s.store.length) ∧
  (∀ i ∈ s.hist.redoStack, i < s.store.length)

instance (s : AppState) : Decidable (WfState s) := by
  unfold WfState
  infer_instance

theorem Hist.commit_eq {α : Type} (s : Hist α) (c : α) :
    s.commit c = ⟨s.displayList ++ [c], []⟩ := by
  rcases s with ⟨dl, rs⟩
  cases rs <;> simp [Hist.commit]

theorem commitAll_from_empty_redo {α : Type} (cs : List α) (dl : List α) :
    commitAll cs ⟨dl, []⟩ = ⟨dl ++ cs, []⟩ := by
  induction cs generalizing dl with
  | nil => simp [commitAll]
  | cons c cs ih =>
    have h1 : commitAll (c :: cs) (⟨dl, []⟩ : Hist α) =
        commitAll cs ((⟨dl, []⟩ : Hist α).commit c) := rfl
    rw [h1, Hist.commit_eq]
    simp only [ih]
    simp

theorem undo_iterate {α : Type} (dl rs : List α) :
    Hist.undo^[dl.length] (⟨dl, rs⟩ : Hist α) = ⟨[], rs ++ dl.reverse⟩ := by
  induction dl using List.reverseRecOn generalizing rs with
  | nil => simp
  | append_singleton ds c ih =>
    rw [List.length_append, List.length_singleton, Function.iterate_succ_apply]
    have h1 : Hist.undo (⟨ds ++ [c], rs⟩ : Hist α) = ⟨ds, rs ++ [c]⟩ := by
      simp [Hist.undo]
    rw [h1, ih]
    simp

theorem redo_iterate {α : Type} (dl rs : List α) :
    Hist.redo^[rs.length] (⟨dl, rs⟩ : Hist α) = ⟨dl ++ rs.reverse, []⟩ := by
  induction rs using List.reverseRecOn generalizing dl with
  | nil => simp
  | append_singleton ds c ih =>
    rw [List.length_append, List.length_singleton, Function.iterate_succ_apply]
    have h1 : Hist.redo (⟨dl, ds ++ [c]⟩ : Hist α) = ⟨dl ++ [c], ds⟩ := by
      simp [Hist.redo]
    rw [h1, ih]
    simp

/-- Claim C1: for every sequence of N commits onto an initially empty
history, N undos leave the display list empty and the redo stack holding
exactly those N commands in reverse commit order, and N redos then restore
the display list's pre-undo content and order and empty the redo stack. -/
theorem commit_undo_redo_roundtrip (cs : List Command) :
    Hist.undo^[cs.length] (commitAll cs ⟨[], []⟩) = ⟨[], cs.reverse⟩ ∧
    Hist.redo^[cs.length] (Hist.undo^[cs.length] (commitAll cs ⟨[], []⟩)) =
      ⟨cs, []⟩ := by
  have h0 : commitAll cs (⟨[], []⟩ : Hist Command) = ⟨cs, []⟩ := by
    simpa using commitAll_from_empty_redo cs []
  have h1 : Hist.undo^[cs.length] (commitAll cs (⟨[], []⟩ : Hist Command)) =
      ⟨[], cs.reverse⟩ := by
    rw [h0]
    simpa using undo_iterate cs []
  refine ⟨h1, ?_⟩
  rw [h1]
  have h2 := redo_iterate ([] : List Command) cs.reverse
  rw [List.length_reverse] at h2
  simpa using h2

/-- Claim C3: `undo` with an empty display list and `redo` with an empty
redo stack are silent no-ops leaving both stacks exactly unchanged. -/
theorem undo_redo_empty_noop (s : Hist Command) :
    (s.displayList = [] → s.undo = s) ∧ (s.redoStack = [] → s.redo = s) := by
  constructor
  · intro h
    simp [Hist.undo, h]
  · intro h
    simp [Hist.redo, h]

/-- Witness for C3 at concrete one-element stacks. -/
theorem undo_redo_empty_noop_witness :
    ((⟨[], [Command.sticker (createSticker ⟨1, 2⟩ "⭐" 32)]⟩ :
        Hist Command).displayList = [] ∧
      Hist.undo ⟨[], [Command.sticker (createSticker ⟨1, 2⟩ "⭐" 32)]⟩ =
        ⟨[], [Command.sticker (createSticker ⟨1, 2⟩ "⭐" 32)]⟩) ∧
    ((⟨[Command.stroke (createMarkerLine ⟨3, 4⟩ none)], []⟩ :
        Hist Command).redoStack = [] ∧
      Hist.redo ⟨[Command.stroke (createMarkerLine ⟨3, 4⟩ none)], []⟩ =
        ⟨[Command.stroke (createMarkerLine ⟨3, 4⟩ none)], []⟩) :=
  ⟨⟨rfl, (undo_redo_empty_noop _).1 rfl⟩,
   ⟨rfl, (undo_redo_empty_noop _).2 rfl⟩⟩

/-- Claim C10: `createMarkerLine` without an options object, or with both
fields omitted, defaults to color "black" and line width 2, and starts with
exactly the single start point. -/
theorem createMarkerLine_defaults (p : Point) :
    createMarkerLine p none = ⟨[p], "black", 2⟩ ∧
    createMarkerLine p (some ⟨none, none⟩) = ⟨[p], "black", 2⟩ :=
  ⟨rfl, rfl⟩

/-- Claim C4: a stroke with exactly one recorded point renders as a filled
circle of radius lineWidth/2 centered on that point, filled with the stroke
color (not an empty path); with two or more points it renders as a connected
path with round line caps and joins. -/
theorem stroke_single_point_dot :
    (∀ (p : Point) (col : String) (w : ℚ),
      (StrokeCmd.mk [p] col w).display =
        [DrawOp.save, DrawOp.setStrokeStyle col, DrawOp.setLineWidth w,
         DrawOp.setLineCap "round", DrawOp.setLineJoin "round",
         DrawOp.beginPath, DrawOp.arc p.x p.y (w / 2),
         DrawOp.setFillStyle col, DrawOp.fill, DrawOp.restore]) ∧
    (∀ (p1 p2 : Point) (ps : List Point) (col : String) (w : ℚ),
      (StrokeCmd.mk (p1 :: p2 :: ps) col w).display =
        [DrawOp.save, DrawOp.setStrokeStyle col, DrawOp.setLineWidth w,
         DrawOp.setLineCap "round", DrawOp.setLineJoin "round",
         DrawOp.beginPath, DrawOp.moveTo p1.x p1.y] ++
        (p2 :: ps).map (fun pt => DrawOp.lineTo pt.x pt.y) ++
        [DrawOp.strokePath, DrawOp.restore]) :=
  ⟨fun _ _ _ => rfl, fun _ _ _ _ _ => rfl⟩

/-- Claim C5: after repositioning a sticker created at `(x0, y0)` to
`(x1, y1)`, its render draws the glyph exactly once, centered at
`(x1, y1)`, and (when the positions differ) no glyph remains at the
original anchor. -/
theorem sticker_reposition_unique (x0 y0 x1 y1 : ℚ) (emoji : String)
    (px : ℚ) :
    (((createSticker ⟨x0, y0⟩ emoji px).drag x1 y1).display =
      [DrawOp.save, DrawOp.setFont px, DrawOp.setTextAlign "center",
       DrawOp.setTextBaseline "middle", DrawOp.fillText emoji x1 y1,
       DrawOp.restore]) ∧
    (((createSticker ⟨x0, y0⟩ emoji px).drag x1 y1).display.countP
      (fun op => match op with
        | DrawOp.fillText _ _ _ => true
        | _ => false) = 1) ∧
    (¬(x1 = x0 ∧ y1 = y0) →
      DrawOp.fillText emoji x0 y0 ∉
        ((createSticker ⟨x0, y0⟩ emoji px).drag x1 y1).display) := by
  refine ⟨rfl, rfl, fun h hmem => ?_⟩
  simp [createSticker, StickerCmd.drag, StickerCmd.display] at hmem
  exact h ⟨hmem.1.symm, hmem.2.symm⟩

/-- Witness for C5 at the spec's example: create at (10,10), drag to
(50,60). -/
theorem sticker_reposition_unique_witness :
    ¬((50 : ℚ) = 10 ∧ (60 : ℚ) = 10) ∧
    DrawOp.fillText "⭐" 10 10 ∉
      ((createSticker ⟨10, 10⟩ "⭐" 32).drag 50 60).display :=
  ⟨by decide, (sticker_reposition_unique 10 10 50 60 "⭐" 32).2.2 (by decide)⟩

/-- Claim C2: every pointer-down commit clears the redo stack
unconditionally, and the command newly created from the active tool is the
last entry of the display list. -/
theorem commit_clears_redo (s : AppState) (x y : ℚ) :
    (step (Event.mousedown x y) s).hist.redoStack = [] ∧
    (step (Event.mousedown x y) s).hist.displayList.getLast? =
      some s.store.length ∧
    (step (Event.mousedown x y) s).store[s.store.length]? =
      some (mkToolCommand s x y) := by
  refine ⟨?_, ?_, ?_⟩
  · simp [step, Hist.commit_eq]
  · simp [step, Hist.commit_eq]
  · simp [step, mkToolCommand, List.getElem?_concat_length]

/-- Claim C6: redraw always clears the full canvas, then renders every
display-list entry in order, then renders the preview exactly when the
cursor is not active and the preview reports itself visible; while the
cursor is active the preview is never painted, whatever its visibility
flag. -/
theorem redraw_order_preview_gating (s : AppState) :
    (redraw s =
      DrawOp.clearRect 0 0 256 256 ::
        (renderDisplayList s ++
          (match s.previewCmd with
           | some p =>
             if s.cursor.active = false ∧ p.visible = true
             then previewDisplay s p else []
           | none => []))) ∧
    (s.cursor.active = true →
      redraw s = DrawOp.clearRect 0 0 256 256 :: renderDisplayList s) := by
  constructor
  · cases hp : s.previewCmd with
    | none => simp [redraw, hp]
    | some p =>
      cases ha : s.cursor.active <;> cases hv : p.visible <;>
        simp [redraw, hp, ha, hv]
  · intro ha
    cases hp : s.previewCmd with
    | none => simp [redraw, hp]
    | some p => simp [redraw, hp, ha]

/-- Witness for C6 at a state dragged into cursor-active mode. -/
theorem redraw_order_preview_gating_witness :
    (step (Event.mousedown 1 2) initState).cursor.active = true ∧
    redraw (step (Event.mousedown 1 2) initState) =
      DrawOp.clearRect 0 0 256 256 ::
        renderDisplayList (step (Event.mousedown 1 2) initState) :=
  ⟨by decide, (redraw_order_preview_gating _).2 (by decide)⟩

/-- Claim C7: under every event, a command referenced by the display list or
the redo stack keeps its stored fields unchanged unless the cursor is
active and it is the in-progress command (the only situation in which the
mousemove handler drags it). -/
theorem frozen_commands_unmutated (s : AppState) (e : Event) (i : Nat)
    (hwf : WfState s)
    (hmem : i ∈ s.hist.displayList ∨ i ∈ s.hist.redoStack)
    (hnotlive : ¬(s.cursor.active = true ∧ s.currentCmd = some i)) :
    (step e s).store[i]? = s.store[i]? := by
  have hlt : i < s.store.length := by
    cases hmem with
    | inl h => exact hwf.1 i h
    | inr h => exact hwf.2 i h
  cases e with
  | mousedown x y =>
    simp only [step]
    exact List.getElem?_append_left hlt
  | mousemove x y =>
    cases ha : s.cursor.active with
    | false => simp [step, ha]
    | true =>
      cases hc : s.currentCmd with
      | none => simp [step, ha, hc]
      | some j =>
        have hij : j ≠ i := by
          intro h
          exact hnotlive ⟨ha, by rw [hc, h]⟩
        simp only [step, ha, hc, storeDrag]
        cases hj : s.store[j]? with
        | none => simp
        | some c => simp [List.getElem?_set_ne hij]
  | mouseup => rfl
  | mouseleave => rfl
  | undoEv => rfl
  | redoEv => rfl
  | clearEv => rfl
  | setMarkerTool w => rfl
  | selectSticker k =>
    simp only [step]
    cases s.stickerDefs[k]? <;> rfl
  | addSticker response =>
    simp only [step]
    cases response with
    | none => rfl
    | some t =>
      by_cases ht : jsTrim t = "" <;> simp [ht, setPreviewForCurrentTool]

/-- Witness for C7: after a click-and-release, the committed command is
untouched by a further undo event. -/
theorem frozen_commands_unmutated_witness :
    WfState (step Event.mouseup (step (Event.mousedown 1 2) initState)) ∧
    (0 ∈ (step Event.mouseup
        (step (Event.mousedown 1 2) initState)).hist.displayList ∨
      0 ∈ (step Event.mouseup
        (step (Event.mousedown 1 2) initState)).hist.redoStack) ∧
    ¬((step Event.mouseup
        (step (Event.mousedown 1 2) initState)).cursor.active = true ∧
      (step Event.mouseup
        (step (Event.mousedown 1 2) initState)).currentCmd = some 0) ∧
    (step Event.undoEv (step Event.mouseup
        (step (Event.mousedown 1 2) initState))).store[0]? =
      (step Event.mouseup (step (Event.mousedown 1 2) initState)).store[0]? :=
  ⟨by decide, by decide, by decide,
   frozen_commands_unmutated _ Event.undoEv 0 (by decide) (by decide)
     (by decide)⟩

/-- Claim C8: custom sticker registration ignores a cancelled prompt and any
label that is empty after trimming, leaving the whole state (registry and
active tool included) unchanged; a label non-empty after trimming is
appended to the registry with the default size 32 and immediately selected
as the active tool. -/
theorem custom_sticker_registration (s : AppState) :
    (step (Event.addSticker none) s = s) ∧
    (∀ t : String, jsTrim t = "" → step (Event.addSticker (some t)) s = s) ∧
    (∀ t : String, jsTrim t ≠ "" →
      (step (Event.addSticker (some t)) s).stickerDefs =
        s.stickerDefs ++ [⟨jsTrim t, 32⟩] ∧
      (step (Event.addSticker (some t)) s).currentToolMode =
        ToolMode.sticker ∧
      (step (Event.addSticker (some t)) s).currentSticker = jsTrim t ∧
      (step (Event.addSticker (some t)) s).currentStickerPx = 32) := by
  refine ⟨rfl, fun t ht => ?_, fun t ht => ?_⟩
  · simp [step, ht]
  · refine ⟨?_, ?_, ?_, ?_⟩ <;> simp [step, ht, setPreviewForCurrentTool]

/-- Witness for C8: a whitespace-only label (space, NBSP, vertical tab) is
rejected and a trimmable label is registered and selected. -/
theorem custom_sticker_registration_witness :
    (jsTrim " \u00A0\u000B" = "" ∧
      step (Event.addSticker (some " \u00A0\u000B")) initState = initState) ∧
    (jsTrim " ok " ≠ "" ∧
      (step (Event.addSticker (some " ok ")) initState).stickerDefs =
        initState.stickerDefs ++ [⟨jsTrim " ok ", 32⟩]) :=
  ⟨⟨by decide,
    (custom_sticker_registration initState).2.1 " \u00A0\u000B" (by decide)⟩,
   ⟨by decide,
    ((custom_sticker_registration initState).2.2 " ok " (by decide)).1⟩⟩

/-- Counterexample to C9 as stated: the export function takes no scale
factor; for a caller requesting scale 2 the claimed output width would be
baseResolution * 2 = 512, but the function always produces 1024. -/
theorem export_scale_counterexample :
    (exportHighResPNG []).width ≠ baseResolution * 2 := by decide

/-- Claim C9 (amended): the export function takes only the ordered command
sequence; it renders every command in order onto an offscreen surface
uniformly scaled by the hard-coded factor 4 and yields a PNG whose
dimensions are baseResolution * 4 = 1024 in each dimension. -/
theorem export_fixed_scale (cs : List Command) :
    exportHighResPNG cs =
      ⟨baseResolution * 4, baseResolution * 4,
        [DrawOp.save, DrawOp.scale 4 4] ++
          (cs.map Command.display).flatten ++ [DrawOp.restore],
        "image/png"⟩ := rfl
